import Mathlib

/-!
Shallow embedding of the webcrawlerGo repository (github.com/0x00f00bar/webcrawlerGo)
for checking its natural-language specification.

Conventions used throughout:
* Go strings are Lean `String`s; the Go standard-library helpers the code relies
  on (`strings.Contains`, `strings.HasPrefix`, `strings.TrimSpace`,
  `strings.Split`, `strings.ToLower`) are modelled character-exactly on
  `List Char` for ASCII input.
* Timestamps are natural numbers (`0` plays the role of Go's zero `time.Time`,
  which the code uses for "unset").
* `net/url.Parse` and robots.txt evaluation (`grobotstxt.AgentAllowed`) are
  third-party/library code, so they enter the embedding as explicit oracle
  parameters; everything written in this repository is translated directly.
-/

/-! ### Go string primitives -/

/-- Character-level test that the first list is an initial segment of the
second; models Go `strings.HasPrefix` on the underlying bytes. -/
def charsStart : List Char → List Char → Bool
  | [], _ => true
  | _ :: _, [] => false
  | c :: cs, d :: ds => c == d && charsStart cs ds

/-- Character-level substring test; models Go `strings.Contains`. -/
def charsContain (sub : List Char) : List Char → Bool
  | [] => charsStart sub []
  | c :: rest => charsStart sub (c :: rest) || charsContain sub rest

/-- Go `strings.Contains s sub`. -/
def goContains (s sub : String) : Bool :=
  charsContain sub.data s.data

/-- Go `strings.HasPrefix s pre`. -/
def goStartsWith (s pre : String) : Bool :=
  charsStart pre.data s.data

/-- Whitespace recognised by Go `unicode.IsSpace` (ASCII fragment). -/
def isSpaceChar (c : Char) : Bool :=
  c == ' ' || c == '\t' || c == '\n' || c == '\r' ||
    c == Char.ofNat 11 || c == Char.ofNat 12

/-- Go `strings.TrimSpace` (ASCII whitespace). -/
def goTrimSpace (s : String) : String :=
  String.mk (((s.data.dropWhile isSpaceChar).reverse.dropWhile isSpaceChar).reverse)

/-- Splitting a character list at every occurrence of `sep`. -/
def splitChars (sep : Char) : List Char → List (List Char)
  | [] => [[]]
  | c :: rest =>
    match splitChars sep rest with
    | [] => [[c]]
    | h :: t => if c == sep then [] :: h :: t else (c :: h) :: t

/-- Go `strings.Split s ","`. -/
def goSplitComma (s : String) : List String :=
  (splitChars ',' s.data).map String.mk

/-- ASCII lower-casing of one character. -/
def lowerChar (c : Char) : Char :=
  if 'A' ≤ c && c ≤ 'Z' then Char.ofNat (c.toNat + 32) else c

/-- Go `strings.ToLower` (ASCII fragment). -/
def goToLower (s : String) : String :=
  String.mk (s.data.map lowerChar)

/-! ### internal package (src/unnamed/part_038)

Direct translations of `ValuePresent`, `IsValidScheme`, `BeginsWith` and
`ContainsAny`; the loops with early `return true` become `List.any`. -/

/-- internal.ValuePresent: needle is an element of haystack. -/
def ValuePresent (needle : String) (haystack : List String) : Bool :=
  haystack.any (fun s => s == needle)

/-- internal.IsValidScheme: scheme is http or https. -/
def IsValidScheme (scheme : String) : Bool :=
  ValuePresent scheme ["http", "https"]

/-- internal.BeginsWith: s begins with any of the strings in testStr.
Note the source calls `strings.HasPrefix` without excluding empty elements. -/
def BeginsWith (s : String) (testStr : List String) : Bool :=
  testStr.any (fun test => goStartsWith s test)

/-- internal.ContainsAny: str contains any of the substrings; the source
explicitly skips empty elements (`sub != ""`). -/
def ContainsAny (str : String) (substrings : List String) : Bool :=
  substrings.any (fun sub => sub != "" && goContains str sub)

/-! ### queue package (src/unnamed/part_019)

The Go `map[string]bool` is modelled as an association list with
replace-or-append insertion; lookups return the first (and, by construction,
only) binding of a key.  The current crawler calls these operations
`Insert` / `InsertForce` / `Remove`; part_019 names them
`Push` / `PushForce` / `Pop` with identical bodies. -/

/-- Lookup in the membership map; `none` models a missing key. -/
def mapLookup : List (String × Bool) → String → Option Bool
  | [], _ => none
  | p :: rest, k => if p.1 = k then some p.2 else mapLookup rest k

/-- Write a key into the membership map (Go `m[k] = v`). -/
def mapSet : List (String × Bool) → String → Bool → List (String × Bool)
  | [], k, v => [(k, v)]
  | p :: rest, k, v => if p.1 = k then (k, v) :: rest else p :: mapSet rest k v

/-- queue.UniqueQueue: a FIFO of strings plus the lifetime membership map. -/
structure UniqueQueue where
  queue : List String
  strMap : List (String × Bool)
deriving DecidableEq, Repr

/-- queue.NewQueue. -/
def NewQueue : UniqueQueue := ⟨[], []⟩

namespace UniqueQueue

/-- UniqueQueue.Size. -/
def Size (q : UniqueQueue) : Nat := q.queue.length

/-- UniqueQueue.IsEmpty. -/
def IsEmpty (q : UniqueQueue) : Bool := q.Size == 0

/-- UniqueQueue.FirstEncounter: true iff the item was never pushed. -/
def FirstEncounter (q : UniqueQueue) (item : String) : Bool :=
  !(mapLookup q.strMap item).isSome

/-- UniqueQueue.GetMapValue; `none` models ErrItemNotFound. -/
def GetMapValue (q : UniqueQueue) (key : String) : Option Bool :=
  mapLookup q.strMap key

/-- UniqueQueue.SetMapValue. -/
def SetMapValue (q : UniqueQueue) (key : String) (value : Bool) : UniqueQueue :=
  { q with strMap := mapSet q.strMap key value }

/-- UniqueQueue.Push (called Insert by the current crawler): appended only on
first encounter, with membership recorded as `false`; returns the success
flag. -/
def Push (q : UniqueQueue) (item : String) : UniqueQueue × Bool :=
  if q.FirstEncounter item then
    (⟨q.queue ++ [item], mapSet q.strMap item false⟩, true)
  else
    (q, false)

/-- UniqueQueue.PushForce (called InsertForce by the current crawler):
appended unconditionally, membership reset to `false`. -/
def PushForce (q : UniqueQueue) (item : String) : UniqueQueue :=
  ⟨q.queue ++ [item], mapSet q.strMap item false⟩

/-- UniqueQueue.Pop (called Remove by the current crawler); `none` models
ErrEmptyQueue.  The membership map is not touched. -/
def Pop (q : UniqueQueue) : Option (String × UniqueQueue) :=
  match q.queue with
  | [] => none
  | x :: rest => some (x, ⟨rest, q.strMap⟩)

end UniqueQueue

/-! ### Queue traces for claim C3 -/

/-- One queue operation of the lifetime considered by claim C3. -/
inductive QOp where
  | push (item : String)
  | pop
deriving DecidableEq, Repr

/-- Trace state: the queue plus the history of successful pushes and pops. -/
structure TraceState where
  q : UniqueQueue
  pushedOk : List String
  popped : List String
deriving DecidableEq, Repr

/-- Execute one queue operation, recording its observable result. -/
def stepOp (st : TraceState) : QOp → TraceState
  | .push item =>
    match st.q.Push item with
    | (q2, ok) =>
      { st with q := q2, pushedOk := if ok then st.pushedOk ++ [item] else st.pushedOk }
  | .pop =>
    match st.q.Pop with
    | some (x, q2) => { st with q := q2, popped := st.popped ++ [x] }
    | none => st

/-- Run a sequence of queue operations from the empty queue. -/
def runOps (ops : List QOp) : TraceState :=
  ops.foldl stepOp ⟨NewQueue, [], []⟩


/-! ### Lemmas about the membership map and traces -/

theorem mapLookup_mapSet (m : List (String × Bool)) (k x : String) (v : Bool) :
    mapLookup (mapSet m k v) x = if x = k then some v else mapLookup m x := by
  induction m with
  | nil =>
    by_cases h : x = k
    · simp [mapSet, mapLookup, h]
    · simp [mapSet, mapLookup, h, Ne.symm h]
  | cons p rest ih =>
    by_cases hp : p.1 = k
    · by_cases h : x = k
      · simp [mapSet, mapLookup, hp, h]
      · have hkx : ¬ k = x := fun hh => h hh.symm
        simp [mapSet, mapLookup, hp, h, hkx]
    · by_cases hx : p.1 = x
      · have hxk : ¬ x = k := fun hh => hp (hx.trans hh)
        simp [mapSet, mapLookup, hp, hx, hxk]
      · simp [mapSet, mapLookup, hp, hx, ih]

theorem push_seen (q : UniqueQueue) (x : String)
    (h : (mapLookup q.strMap x).isSome = true) : q.Push x = (q, false) := by
  simp [UniqueQueue.Push, UniqueQueue.FirstEncounter, h]

theorem isSome_after_push (q : UniqueQueue) (x : String) :
    (mapLookup ((q.Push x).1.strMap) x).isSome = true := by
  by_cases h : q.FirstEncounter x = true
  · simp [UniqueQueue.Push, h, mapLookup_mapSet]
  · have h2 : (mapLookup q.strMap x).isSome = true := by
      cases hl : mapLookup q.strMap x with
      | none => exact absurd (by simp [UniqueQueue.FirstEncounter, hl]) h
      | some b => simp
    simp [UniqueQueue.Push, UniqueQueue.FirstEncounter, h2]

theorem isSome_persist_step (st : TraceState) (op : QOp) (x : String)
    (h : (mapLookup st.q.strMap x).isSome = true) :
    (mapLookup (stepOp st op).q.strMap x).isSome = true := by
  cases op with
  | push item =>
    by_cases hfe : st.q.FirstEncounter item = true
    · simp only [stepOp, UniqueQueue.Push, hfe, if_pos]
      by_cases hxi : x = item <;> simp [mapLookup_mapSet, hxi, h]
    · simp only [Bool.not_eq_true] at hfe
      simp [stepOp, UniqueQueue.Push, hfe, h]
  | pop =>
    cases hqq : st.q.queue with
    | nil => simpa [stepOp, UniqueQueue.Pop, hqq] using h
    | cons a rest => simpa [stepOp, UniqueQueue.Pop, hqq] using h

theorem isSome_persist_foldl (more : List QOp) (st : TraceState) (x : String)
    (h : (mapLookup st.q.strMap x).isSome = true) :
    (mapLookup (more.foldl stepOp st).q.strMap x).isSome = true := by
  induction more generalizing st with
  | nil => simpa using h
  | cons op rest ih => exact ih (stepOp st op) (isSome_persist_step st op x h)

theorem runOps_append (ops more : List QOp) :
    runOps (ops ++ more) = more.foldl stepOp (runOps ops) := by
  simp [runOps, List.foldl_append]

/-- Invariant carried along a queue trace: every pending and every popped item
was successfully pushed at some earlier point. -/
def QInv (st : TraceState) : Prop :=
  (∀ z ∈ st.q.queue, z ∈ st.pushedOk) ∧ (∀ z ∈ st.popped, z ∈ st.pushedOk)

theorem qinv_step (st : TraceState) (op : QOp) (h : QInv st) : QInv (stepOp st op) := by
  obtain ⟨hq, hp⟩ := h
  cases op with
  | push item =>
    by_cases hfe : st.q.FirstEncounter item = true
    · refine ⟨?_, ?_⟩ <;> simp [stepOp, UniqueQueue.Push, hfe]
      · intro z hz
        rcases hz with hz | hz
        · exact Or.inl (hq z hz)
        · exact Or.inr hz
      · intro z hz
        exact Or.inl (hp z hz)
    · simp only [Bool.not_eq_true] at hfe
      simp only [stepOp, UniqueQueue.Push, hfe, Bool.false_eq_true, if_false]
      exact ⟨hq, hp⟩
  | pop =>
    cases hqq : st.q.queue with
    | nil =>
      simp only [stepOp, UniqueQueue.Pop, hqq]
      exact ⟨hq, hp⟩
    | cons a rest =>
      refine ⟨?_, ?_⟩ <;> simp [stepOp, UniqueQueue.Pop, hqq]
      · intro z hz
        exact hq z (by simp [hqq, hz])
      · intro z hz
        rcases hz with hz | hz
        · exact hp z hz
        · exact hz ▸ hq a (by simp [hqq])

theorem qinv_foldl (ops : List QOp) (st : TraceState) (h : QInv st) :
    QInv (ops.foldl stepOp st) := by
  induction ops generalizing st with
  | nil => simpa using h
  | cons op rest ih => exact ih (stepOp st op) (qinv_step st op h)

theorem qinv_run (ops : List QOp) : QInv (runOps ops) := by
  refine qinv_foldl ops _ ⟨?_, ?_⟩ <;> simp [NewQueue]

/-- C3: for every sequence of Insert (Push) and Remove (Pop) operations from
the empty queue, every item returned by Remove was previously passed to a
successful Insert; and once Insert(x) has returned true, every subsequent
Insert(x) returns false and leaves the pending list and the membership map
unchanged (Remove does not clear membership). -/
theorem c3_queue_dedup (ops more : List QOp) (x y : String) :
    (y ∈ (runOps ops).popped → y ∈ (runOps ops).pushedOk) ∧
    (((runOps ops).q.Push x).2 = true →
      (runOps (ops ++ QOp.push x :: more)).q.Push x
        = ((runOps (ops ++ QOp.push x :: more)).q, false)) := by
  constructor
  · exact fun h => (qinv_run ops).2 y h
  · intro _
    apply push_seen
    have h1 : (mapLookup ((stepOp (runOps ops) (QOp.push x)).q.strMap) x).isSome = true := by
      have hps := isSome_after_push (runOps ops).q x
      simp only [stepOp]
      cases hpp : (runOps ops).q.Push x with
      | mk q2 ok => simpa [hpp] using hps
    have h2 := isSome_persist_foldl more (stepOp (runOps ops) (QOp.push x)) x h1
    have hrw : runOps (ops ++ QOp.push x :: more)
        = more.foldl stepOp (stepOp (runOps ops) (QOp.push x)) := by
      rw [show ops ++ QOp.push x :: more = (ops ++ [QOp.push x]) ++ more by simp,
        runOps_append, runOps_append]
      simp [runOps]
    rw [hrw]
    exact h2

/-- C3 witness: a concrete trace exercising both conjuncts. -/
theorem c3_queue_dedup_witness :
    ("a" ∈ (runOps [QOp.push "a", QOp.pop]).pushedOk) ∧
    ((runOps ([] ++ QOp.push "a" :: [QOp.pop])).q.Push "a"
      = ((runOps ([] ++ QOp.push "a" :: [QOp.pop])).q, false)) :=
  ⟨(c3_queue_dedup [QOp.push "a", QOp.pop] [] "a" "a").1 (by decide),
   (c3_queue_dedup [] [QOp.pop] "a" "a").2 (by decide)⟩

/-! ### Claim C8: empty elements in BeginsWith / ContainsAny -/

/-- C8 counterexample: the claim says an empty element never causes
`BeginsWith` to return true for any s, but the source checks
`strings.HasPrefix(s, test)` without excluding empty elements, and the empty
string is a prefix of everything; `ContainsAny` by contrast does skip empty
elements, so the same list makes it return false. -/
theorem c8_counterexample :
    BeginsWith "x" [""] = true ∧ ContainsAny "x" [""] = false := by
  decide

/-- C8 amended: `ContainsAny` treats empty-string elements as non-matching (a
true result is always witnessed by a non-empty element), but `BeginsWith` does
not: any list containing an empty string makes it return true for every s. -/
theorem c8_amended (s : String) (l : List String) :
    (ContainsAny s l = true → ∃ sub, sub ∈ l ∧ sub ≠ "" ∧ goContains s sub = true) ∧
    ("" ∈ l → BeginsWith s l = true) := by
  constructor
  · intro h
    simp only [ContainsAny, List.any_eq_true] at h
    obtain ⟨sub, hmem, hcond⟩ := h
    rw [Bool.and_eq_true] at hcond
    exact ⟨sub, hmem, by simpa using hcond.1, hcond.2⟩
  · intro h
    simp only [BeginsWith, List.any_eq_true]
    exact ⟨"", h, by simp [goStartsWith, charsStart]⟩

/-- C8 witness: concrete instances discharging both hypotheses. -/
theorem c8_amended_witness :
    (∃ sub, sub ∈ ["b"] ∧ sub ≠ "" ∧ goContains "ab" sub = true) ∧
    BeginsWith "x" ["", "y"] = true :=
  ⟨(c8_amended "ab" ["b"]).1 (by decide), (c8_amended "x" ["", "y"]).2 (by decide)⟩

/-! ### cmd helpers (src/cmd/webcrawlerGo/helpers.go) for claim C10 -/

/-- seperateCmdArgs: comma-separated argument splitting.  Note the source
tests `str != ""` on the raw element BEFORE trimming it, so a whitespace-only
element survives as the empty string. -/
def seperateCmdArgs (args : String) : List String :=
  let args2 := goTrimSpace args
  if args2 == "" then []
  else if goContains args2 "," then
    (goSplitComma args2).foldl
      (fun acc str => if str != "" then acc ++ [goTrimSpace str] else acc) []
  else [args2]

/-- Map a fallible element transformation over a list, propagating the first
failure; models a Go loop whose body can panic. -/
def mapOptionAll {α β : Type} (f : α → Option β) : List α → Option (List β)
  | [] => some []
  | a :: rest =>
    match f a with
    | none => none
    | some b =>
      match mapOptionAll f rest with
      | none => none
      | some bs => some (b :: bs)

/-- getMarkedURLS: prepend a leading slash to every marked URL.  The source
indexes `mUrl[0]` after trimming without checking for emptiness; the `none`
result models the index-out-of-range runtime panic on an empty element. -/
def getMarkedURLS (mURLStr : String) : Option (List String) :=
  mapOptionAll (fun mUrl =>
    let t := goTrimSpace mUrl
    match t.data with
    | [] => none
    | c :: _ => some (if c != '/' then "/" ++ t else t)) (seperateCmdArgs mURLStr)

theorem mapOptionAll_none_of_mem {α β : Type} (f : α → Option β) (l : List α) (x : α)
    (hx : x ∈ l) (hf : f x = none) : mapOptionAll f l = none := by
  induction l with
  | nil => cases hx
  | cons a rest ih =>
    rcases List.mem_cons.mp hx with h | h
    · subst h
      simp [mapOptionAll, hf]
    · cases hfa : f a <;> simp [mapOptionAll, hfa, ih h]

/-- C10: whenever the comma-separated marked-URL argument yields an element
that is empty after trimming (for instance a whitespace-only element such as
in "a, ,b"), getMarkedURLS hits `mUrl[0]` on the empty string and panics
(modelled as `none`) instead of returning a value. -/
theorem c10_marked_urls_panic (args : String)
    (h : "" ∈ seperateCmdArgs args) : getMarkedURLS args = none := by
  unfold getMarkedURLS
  apply mapOptionAll_none_of_mem _ _ "" h
  rfl

/-- C10 witness: the concrete input "a, ,b" from the claim. -/
theorem c10_marked_urls_panic_witness :
    ("" ∈ seperateCmdArgs "a, ,b") ∧ getMarkedURLS "a, ,b" = none :=
  ⟨by decide, c10_marked_urls_panic "a, ,b" (by decide)⟩

/-! ### models package: URL and Page store (src/models/url.go, page.go)

The two tables are lists of rows.  SQL semantics used by the queries:
`QueryUpdateURL` updates every row matching `id AND version` (ids are unique
in practice), bumps `version` by one and returns the new version, scanning
`sql.ErrNoRows` into `ErrEditConflict`; `QueryInsertURL` inserts
(url, last_checked, last_saved, is_monitored) and lets the schema fill
`id` (serial), `first_encountered` (now), `is_alive` (default true) and
`version` (default 1).  The unique index on `url` makes duplicate inserts
fail. -/

/-- Typed store errors of the models package. -/
inductive ModelErr where
  | recordNotFound
  | nullURL
  | editConflict
  | uniqueViolation
deriving DecidableEq, Repr

/-- models.URL: one row of the urls table.  Timestamps are `Nat`, with `0`
standing for Go's zero `time.Time` / SQL NULL ("unset"). -/
structure URLRow where
  id : Nat
  url : String
  firstEncountered : Nat
  lastChecked : Nat
  lastSaved : Nat
  isMonitored : Bool
  isAlive : Bool
  version : Nat
deriving DecidableEq, Repr

/-- models.NewURL: a fresh in-memory URL value; `id`, `firstEncountered` and
`version` are placeholders overwritten by the insert's RETURNING clause. -/
def NewURL (url : String) (lastChecked lastSaved : Nat) (isMonitored : Bool) : URLRow :=
  { id := 0, url := url, firstEncountered := 0, lastChecked := lastChecked,
    lastSaved := lastSaved, isMonitored := isMonitored, isAlive := true, version := 0 }

/-- The SET clause of QueryUpdateURL applied to a matching row. -/
def updatedURLRow (m r : URLRow) : URLRow :=
  { r with
    lastChecked := m.lastChecked, lastSaved := m.lastSaved,
    isMonitored := m.isMonitored, isAlive := m.isAlive, version := r.version + 1 }

/-- Effect of the UPDATE statement of QueryUpdateURL on the table: every row
matching `id AND version` gets the new field values and a bumped version. -/
def applyUrlUpdate (m : URLRow) (db : List URLRow) : List URLRow :=
  db.map (fun r => if r.id = m.id ∧ r.version = m.version then updatedURLRow m r else r)

/-- models.URLUpdate: optimistic-locking update; no matched row means the
caller's version was stale and yields ErrEditConflict. -/
def URLUpdate (m : URLRow) (db : List URLRow) : Except ModelErr (List URLRow × Nat) :=
  if db.any (fun r => r.id == m.id && r.version == m.version) then
    .ok (applyUrlUpdate m db, m.version + 1)
  else
    .error .editConflict

/-- models.URLGetByURL: lookup by exact url string (the crawler lower-cases
every url before storing or querying). -/
def URLGetByURL (urlStr : String) (db : List URLRow) : Except ModelErr URLRow :=
  if urlStr = "" then .error .nullURL
  else
    match db.find? (fun r => r.url == urlStr) with
    | some r => .ok r
    | none => .error .recordNotFound

/-- Next serial id for a table of URL rows. -/
def nextId (db : List URLRow) : Nat :=
  db.foldl (fun a r => max a r.id) 0 + 1

/-- models.URLInsert: append a new row with schema defaults (fresh id,
first_encountered = now, is_alive = true, version = 1); a duplicate url makes
the unique index reject the insert. -/
def URLInsert (u : URLRow) (db : List URLRow) (tNow : Nat) : Except ModelErr (List URLRow) :=
  if db.any (fun r => r.url == u.url) then .error .uniqueViolation
  else
    .ok (db ++ [{ u with
      id := nextId db, firstEncountered := tNow,
      isAlive := true, version := 1 }])

/-- models.Page: one row of the pages table. -/
structure PageRow where
  id : Nat
  urlId : Nat
  addedAt : Nat
  content : String
deriving DecidableEq, Repr

/-- Next serial id for the pages table. -/
def nextPageId (pages : List PageRow) : Nat :=
  pages.foldl (fun a r => max a r.id) 0 + 1

/-- models.PageInsert via QueryInsertPage: insert-only, added_at defaults to
now. -/
def PageInsert (urlId : Nat) (content : String) (pages : List PageRow) (tNow : Nat) :
    List PageRow :=
  pages ++ [{ id := nextPageId pages, urlId := urlId, addedAt := tNow, content := content }]

/-- The whole store: both tables. -/
structure Store where
  urls : List URLRow
  pages : List PageRow
deriving DecidableEq, Repr

/-- C2: for a url row r (its id unique in the table), an Update carrying a
stale version returns EditConflict and leaves the table unchanged, while an
Update carrying the stored version succeeds and bumps the stored version by
exactly one; any row of the updated table is either the bumped row or an
untouched old row. -/
theorem c2_update_optimistic (m r : URLRow) (db : List URLRow)
    (hmem : r ∈ db) (hid : r.id = m.id)
    (huniq : ∀ r2 ∈ db, r2.id = m.id → r2 = r) :
    (m.version ≠ r.version →
      URLUpdate m db = .error .editConflict ∧ applyUrlUpdate m db = db) ∧
    (m.version = r.version →
      URLUpdate m db = .ok (applyUrlUpdate m db, m.version + 1) ∧
      updatedURLRow m r ∈ applyUrlUpdate m db ∧
      (updatedURLRow m r).version = r.version + 1 ∧
      ∀ r2 ∈ applyUrlUpdate m db, r2 = updatedURLRow m r ∨ r2 ∈ db) := by
  constructor
  · intro hver
    have hnone : ∀ r2 ∈ db, ¬ (r2.id = m.id ∧ r2.version = m.version) := by
      intro r2 h2 ⟨h2id, h2ver⟩
      have := huniq r2 h2 h2id
      subst this
      exact hver (h2ver.symm) |>.elim
    constructor
    · have hany : db.any (fun r => r.id == m.id && r.version == m.version) = false := by
        rw [List.any_eq_false]
        intro r2 h2
        have := hnone r2 h2
        simp only [Bool.and_eq_true, beq_iff_eq]
        exact fun hh => this hh
      simp [URLUpdate, hany]
    · unfold applyUrlUpdate
      have : ∀ r2 ∈ db,
          (if r2.id = m.id ∧ r2.version = m.version then updatedURLRow m r2 else r2) = r2 := by
        intro r2 h2
        rw [if_neg (hnone r2 h2)]
      rw [List.map_congr_left this]
      simp
  · intro hver
    have hany : db.any (fun r => r.id == m.id && r.version == m.version) = true := by
      rw [List.any_eq_true]
      exact ⟨r, hmem, by simp [hid, hver.symm]⟩
    refine ⟨by simp [URLUpdate, hany], ?_, ?_, ?_⟩
    · unfold applyUrlUpdate
      refine List.mem_map.mpr ⟨r, hmem, ?_⟩
      rw [if_pos ⟨hid, hver.symm⟩]
    · simp [updatedURLRow]
    · intro r2 h2
      obtain ⟨orig, horig, heq⟩ := List.mem_map.mp h2
      by_cases hcond : orig.id = m.id ∧ orig.version = m.version
      · left
        rw [← heq, if_pos hcond]
        rw [huniq orig horig hcond.1]
      · right
        rw [← heq, if_neg hcond]
        exact horig

/-- C2 witness: a one-row table, one stale and one fresh update; row fields
are (id, url, first_encountered, last_checked, last_saved, is_monitored,
is_alive, version). -/
theorem c2_update_optimistic_witness :
    (URLUpdate ⟨1, "https://h.example/", 0, 0, 0, false, true, 2⟩
        [⟨1, "https://h.example/", 0, 0, 0, false, true, 3⟩]
      = .error .editConflict) ∧
    (URLUpdate ⟨1, "https://h.example/", 0, 5, 0, false, true, 3⟩
        [⟨1, "https://h.example/", 0, 0, 0, false, true, 3⟩]
      = .ok (applyUrlUpdate ⟨1, "https://h.example/", 0, 5, 0, false, true, 3⟩
        [⟨1, "https://h.example/", 0, 0, 0, false, true, 3⟩], 4)) :=
  ⟨((c2_update_optimistic ⟨1, "https://h.example/", 0, 0, 0, false, true, 2⟩
      ⟨1, "https://h.example/", 0, 0, 0, false, true, 3⟩
      _ (by decide) (by decide) (by decide)).1 (by decide)).1,
   ((c2_update_optimistic ⟨1, "https://h.example/", 0, 5, 0, false, true, 3⟩
      ⟨1, "https://h.example/", 0, 0, 0, false, true, 3⟩
      _ (by decide) (by decide) (by decide)).2 (by decide)).1⟩

/-! ### Crawler persistence (src/crawler.go savePageContent / updateLastCheckedDate)

`savePageContent` takes the two successive `time.Now()` readings it performs
as `t1` (stored into LastChecked) and `t2` (stored into LastSaved), plus
`tPage` for the page row's `added_at` default; a monotone clock gives
`t1 ≤ t2`.  `doc.Html()` is modelled by the `content` argument. -/

/-- Errors that end the worker from savePageContent: a store error or the
under-100-characters content check (a `runtime.Goexit` in the source). -/
inductive SaveErr where
  | model (e : ModelErr)
  | shortContent
deriving DecidableEq, Repr

/-- crawler.savePageContent: look the URL row up, refuse short content,
insert the page, then stamp LastChecked (first reading) and LastSaved
(second reading) and update the row. -/
def savePageContent (store : Store) (urlpath content : String) (tPage t1 t2 : Nat) :
    Except SaveErr Store :=
  match URLGetByURL urlpath store.urls with
  | .error e => .error (.model e)
  | .ok uModel =>
    if content.length < 100 then .error .shortContent
    else
      match URLUpdate { uModel with lastChecked := t1, lastSaved := t2 } store.urls with
      | .error e => .error (.model e)
      | .ok (urls2, _) => .ok ⟨urls2, PageInsert uModel.id content store.pages tPage⟩

/-- crawler.updateLastCheckedDate: stamp only LastChecked. -/
def updateLastCheckedDate (store : Store) (urlpath : String) (datetime : Nat) :
    Except ModelErr Store :=
  match URLGetByURL urlpath store.urls with
  | .error e => .error e
  | .ok uModel =>
    match URLUpdate { uModel with lastChecked := datetime } store.urls with
    | .error e => .error e
    | .ok (urls2, _) => .ok { store with urls := urls2 }

/-- The invariant of claim C4 on one row: last_saved ≤ last_checked whenever
both timestamps are set. -/
def urlTimesInv (r : URLRow) : Bool :=
  r.lastSaved == 0 || r.lastChecked == 0 || decide (r.lastSaved ≤ r.lastChecked)

theorem urlGetByURL_ok (urlStr : String) (db : List URLRow) (u : URLRow)
    (h : URLGetByURL urlStr db = .ok u) : u ∈ db ∧ u.url = urlStr := by
  unfold URLGetByURL at h
  by_cases hs : urlStr = ""
  · simp [hs] at h
  · rw [if_neg hs] at h
    cases hf : db.find? (fun r => r.url == urlStr) with
    | none => rw [hf] at h; cases h
    | some r =>
      rw [hf] at h
      cases h
      exact ⟨List.mem_of_find?_eq_some hf, by simpa using List.find?_some hf⟩

theorem mem_applyUrlUpdate_of_match (m : URLRow) (db : List URLRow) (r : URLRow)
    (hr : r ∈ db) (hid : r.id = m.id) (hver : r.version = m.version) :
    updatedURLRow m r ∈ applyUrlUpdate m db :=
  List.mem_map.mpr ⟨r, hr, by rw [if_pos ⟨hid, hver⟩]⟩

theorem mem_applyUrlUpdate (m : URLRow) (db : List URLRow) (r2 : URLRow)
    (h : r2 ∈ applyUrlUpdate m db) :
    (∃ orig, orig ∈ db ∧ r2 = updatedURLRow m orig) ∨ r2 ∈ db := by
  obtain ⟨orig, horig, heq⟩ := List.mem_map.mp h
  by_cases hcond : orig.id = m.id ∧ orig.version = m.version
  · exact Or.inl ⟨orig, horig, by rw [← heq, if_pos hcond]⟩
  · exact Or.inr (heq ▸ (by rw [if_neg hcond]; exact horig))

/-- C4 counterexample: a store whose only row satisfies the invariant
(last_checked = last_saved = 5); after a successful savePageContent whose two
clock readings differ (t1 = 10 then t2 = 11) the row has last_saved = 11 >
10 = last_checked, so the claimed invariant is violated by the very operation
said to preserve it. -/
theorem c4_counterexample :
    ((savePageContent ⟨[⟨1, "https://h.example/m", 0, 5, 5, true, true, 1⟩], []⟩
        "https://h.example/m" (String.mk (List.replicate 100 'a')) 9 10 11).toOption).map
      (fun s => s.urls.map urlTimesInv) = some [false] := by
  decide

/-- C4 amended: savePageContent stamps last_checked with its first clock
reading and last_saved with its second, so after it the row satisfies
last_checked = t1 and last_saved = t2 (the spec inequality last_saved ≤
last_checked therefore holds only when the two readings coincide), while
updateLastCheckedDate preserves the invariant whenever the stamped time is
not earlier than the row's last_saved. -/
theorem c4_timestamps (store : Store) (urlpath content : String)
    (tPage t1 t2 t : Nat) (s2 s3 : Store) (u : URLRow) :
    (savePageContent store urlpath content tPage t1 t2 = .ok s2 →
      ∃ r, r ∈ s2.urls ∧ r.url = urlpath ∧ r.lastChecked = t1 ∧ r.lastSaved = t2) ∧
    (URLGetByURL urlpath store.urls = .ok u → u.lastSaved ≤ t →
      updateLastCheckedDate store urlpath t = .ok s3 →
      (∀ r ∈ store.urls, urlTimesInv r = true) →
      ∀ r ∈ s3.urls, urlTimesInv r = true) := by
  constructor
  · intro h
    unfold savePageContent at h
    cases hg : URLGetByURL urlpath store.urls with
    | error e => rw [hg] at h; cases h
    | ok uModel =>
      rw [hg] at h
      dsimp only at h
      by_cases hlen : content.length < 100
      · rw [if_pos hlen] at h; cases h
      · rw [if_neg hlen] at h
        cases hu : URLUpdate { uModel with lastChecked := t1, lastSaved := t2 } store.urls with
        | error e => rw [hu] at h; cases h
        | ok pr =>
          obtain ⟨urls2, v⟩ := pr
          rw [hu] at h
          cases h
          obtain ⟨hmem, hurl⟩ := urlGetByURL_ok urlpath store.urls uModel hg
          refine ⟨updatedURLRow { uModel with lastChecked := t1, lastSaved := t2 } uModel,
            ?_, by simpa [updatedURLRow] using hurl, by simp [updatedURLRow],
            by simp [updatedURLRow]⟩
          have hin := mem_applyUrlUpdate_of_match
            { uModel with lastChecked := t1, lastSaved := t2 } store.urls uModel hmem
            (by simp) (by simp)
          have hurls : urls2 = applyUrlUpdate
              { uModel with lastChecked := t1, lastSaved := t2 } store.urls := by
            unfold URLUpdate at hu
            by_cases hany : (store.urls.any (fun r =>
                r.id == uModel.id && r.version == uModel.version)) = true
            · rw [if_pos (by simpa using hany)] at hu
              cases hu
              rfl
            · rw [if_neg (by simpa using hany)] at hu
              cases hu
          rw [hurls]
          exact hin
  · intro hg hle hup hinv
    unfold updateLastCheckedDate at hup
    rw [hg] at hup
    dsimp only at hup
    cases hu : URLUpdate { u with lastChecked := t } store.urls with
    | error e => rw [hu] at hup; cases hup
    | ok pr =>
      obtain ⟨urls2, v⟩ := pr
      rw [hu] at hup
      cases hup
      have hurls : urls2 = applyUrlUpdate { u with lastChecked := t } store.urls := by
        unfold URLUpdate at hu
        by_cases hany : (store.urls.any (fun r =>
            r.id == u.id && r.version == u.version)) = true
        · rw [if_pos (by simpa using hany)] at hu
          cases hu
          rfl
        · rw [if_neg (by simpa using hany)] at hu
          cases hu
      intro r hr
      simp only at hr
      rw [hurls] at hr
      rcases mem_applyUrlUpdate _ _ _ hr with ⟨orig, _, heq⟩ | hold
      · subst heq
        simp only [urlTimesInv, updatedURLRow]
        by_cases hz : u.lastSaved = 0
        · simp [hz]
        · simp [hz, hle]
      · exact hinv r hold

/-- C4 witness: concrete instances of both conjuncts, discharging every
hypothesis by evaluation. -/
theorem c4_timestamps_witness :
    (∃ r, r ∈ (⟨[⟨1, "https://h.example/m", 0, 10, 11, true, true, 2⟩],
        [⟨1, 1, 9, String.mk (List.replicate 100 'a')⟩]⟩ : Store).urls ∧
      r.url = "https://h.example/m" ∧ r.lastChecked = 10 ∧ r.lastSaved = 11) ∧
    (∀ r ∈ (⟨[⟨1, "https://h.example/a", 0, 7, 4, false, true, 2⟩], []⟩ : Store).urls,
      urlTimesInv r = true) :=
  ⟨(c4_timestamps ⟨[⟨1, "https://h.example/m", 0, 5, 5, true, true, 1⟩], []⟩
      "https://h.example/m" (String.mk (List.replicate 100 'a')) 9 10 11 0
      ⟨[⟨1, "https://h.example/m", 0, 10, 11, true, true, 2⟩],
        [⟨1, 1, 9, String.mk (List.replicate 100 'a')⟩]⟩
      ⟨[], []⟩ ⟨0, "", 0, 0, 0, false, true, 0⟩).1 (by rfl),
   (c4_timestamps ⟨[⟨1, "https://h.example/a", 0, 5, 4, false, true, 1⟩], []⟩
      "https://h.example/a" "" 0 0 0 7
      ⟨[], []⟩ ⟨[⟨1, "https://h.example/a", 0, 7, 4, false, true, 2⟩], []⟩
      ⟨1, "https://h.example/a", 0, 5, 4, false, true, 1⟩).2
      (by rfl) (by decide) (by rfl) (by decide)⟩

/-! ### URL validation (src/crawler.go isValidURL) for claim C5

`net/url.Parse` and `grobotstxt.AgentAllowed` are external libraries, so the
crawler configuration carries them as oracles: `parse` returns the parsed
components (`hostname` is `URL.Hostname()`, the host without its port) or
`none` on a parse error, and `robotsAllowed href` is
`grobotstxt.AgentAllowed(robotsTxt, userAgent, href)` with the run's cached
robots.txt and configured user-agent baked in. -/

/-- Parsed components of a net/url.URL as used by the crawler. -/
structure GoURL where
  scheme : String
  host : String
  hostname : String
  path : String
deriving DecidableEq, Repr

/-- CrawlerConfig fields used by the pure parts of the worker loop. -/
structure CrawlerCfg where
  baseURLString : String
  baseHostname : String
  markedURLs : List String
  ignorePatterns : List String
  retryTimes : Nat
  parse : String → Option GoURL
  robotsAllowed : String → Bool

/-- internal.IsAbsoluteURL: parses cleanly with non-empty scheme and host. -/
def IsAbsoluteURL (parse : String → Option GoURL) (href : String) : Bool :=
  match parse href with
  | none => false
  | some u => u.scheme != "" && u.host != ""

/-- crawler.isValidURL.  The source's nested
`if scheme != "" && host != "" { if hostname != base { return false } }`
is flattened into one conjunction guarding the same early return. -/
def isValidURL (c : CrawlerCfg) (href : String) : Bool :=
  if href == "" then false
  else
    match c.parse href with
    | none => false
    | some u =>
      if u.scheme != "" && u.host != "" && u.hostname != c.baseHostname then false
      else if !(IsValidScheme u.scheme) then false
      else if ContainsAny u.path c.ignorePatterns then false
      else if !(c.robotsAllowed href) then false
      else true

/-- crawler.isMarkedURL. -/
def isMarkedURL (c : CrawlerCfg) (href : String) : Bool :=
  ContainsAny href c.markedURLs

/-- Validity predicate written from the words of claim C5: relative hrefs
(no scheme and no host) are valid when the remaining conditions hold, and the
scheme is constrained only "when present". -/
def specValidURL (c : CrawlerCfg) (href : String) : Bool :=
  href != "" &&
    match c.parse href with
    | none => false
    | some u =>
      ((u.scheme == "" && u.host == "") || u.hostname == c.baseHostname) &&
      (u.scheme == "" || IsValidScheme u.scheme) &&
      !(ContainsAny u.path c.ignorePatterns) &&
      c.robotsAllowed href

/-- Validity predicate as the code actually behaves: the scheme must be http
or https unconditionally, so a relative href (empty scheme) is never valid. -/
def specValidURLAmended (c : CrawlerCfg) (href : String) : Bool :=
  href != "" &&
    match c.parse href with
    | none => false
    | some u =>
      (!(u.scheme != "" && u.host != "") || u.hostname == c.baseHostname) &&
      IsValidScheme u.scheme &&
      !(ContainsAny u.path c.ignorePatterns) &&
      c.robotsAllowed href

/-- Concrete configuration for the C5 counterexample: base host h.example, no
ignore patterns, robots allows everything, and the parse oracle returning
what net/url.Parse returns for the relative href "/about". -/
def c5cfg : CrawlerCfg :=
  { baseURLString := "https://h.example", baseHostname := "h.example",
    markedURLs := [], ignorePatterns := [], retryTimes := 0,
    parse := fun s => if s == "/about" then some ⟨"", "", "", "/about"⟩ else none,
    robotsAllowed := fun _ => true }

/-- C5 counterexample: the claim says every relative URL satisfying the other
conditions is valid, but `isValidURL` rejects the relative href "/about"
because its empty scheme fails the unconditional http/https scheme check. -/
theorem c5_counterexample :
    specValidURL c5cfg "/about" = true ∧ isValidURL c5cfg "/about" = false := by
  decide

/-- C5 amended: isValidURL holds iff the href is non-empty, parses, is not an
absolute URL of a foreign host, has scheme http or https (so relative hrefs
with an empty scheme are always invalid), matches no ignore pattern on its
path, and is allowed by robots.txt. -/
theorem c5_valid_characterization (c : CrawlerCfg) (href : String) :
    isValidURL c href = specValidURLAmended c href := by
  unfold isValidURL specValidURLAmended
  by_cases h0 : (href == "") = true
  · have h02 : href = "" := by simpa using h0
    subst h02
    simp
  · simp only [Bool.not_eq_true] at h0
    simp only [h0]
    cases hp : c.parse href with
    | none => simp
    | some u =>
      simp only
      cases hs : u.scheme != "" <;>
        cases hh : u.host != "" <;>
          cases hn : u.hostname != c.baseHostname <;>
            cases hv : IsValidScheme u.scheme <;>
              cases hi : ContainsAny u.path c.ignorePatterns <;>
                cases hr : c.robotsAllowed href <;>
                  simp_all

/-! ### Robots policy (src/crawler.go getRobotsTxt) for claim C7 -/

/-- Outcome of the robots.txt HTTP round trip: the request/transport can
fail, or a response with some status arrives whose body read can itself
fail. -/
inductive RobotsFetch where
  | transportErr
  | response (status : Nat) (body : Except Unit String)

/-- crawler.getRobotsTxt: a transport error is returned as an error; HTTP
429 and every status at least 500 are errors (Google's policy, per the
source comment); any other response has its body returned as the robots.txt
text. -/
def getRobotsTxt (f : RobotsFetch) : Except String String :=
  match f with
  | .transportErr => .error "could not get robots.txt: transport error"
  | .response status body =>
    if status = 429 ∨ 500 ≤ status then
      .error "could not get robots.txt: HTTP status failure"
    else
      match body with
      | .error _ => .error "error while reading robots.txt"
      | .ok s => .ok s

/-- Observable error-ness of an Except result. -/
def isErrorResult {ε α : Type} : Except ε α → Bool
  | .error _ => true
  | .ok _ => false

/-- C7 counterexample: a transport error aborts the run (the claim says it
degrades to allow-all), and a 404 response returns its body verbatim rather
than an empty robots.txt. -/
theorem c7_counterexample :
    isErrorResult (getRobotsTxt .transportErr) = true ∧
    getRobotsTxt (.response 404 (.ok "junk")) = .ok "junk" ∧
    getRobotsTxt (.response 404 (.ok "junk")) ≠ .ok "" := by
  refine ⟨rfl, rfl, fun h => ?_⟩
  rw [show getRobotsTxt (.response 404 (.ok "junk")) = .ok "junk" from rfl] at h
  exact absurd (Except.ok.inj h) (by decide)

/-- C7 amended: getRobotsTxt fails exactly when the response status is 429 or
at least 500 (for a readable body), returns the body verbatim for every other
status, and also fails on a transport error. -/
theorem c7_robots_outcomes (st : Nat) (body : String) :
    (isErrorResult (getRobotsTxt (.response st (.ok body))) = true ↔
      (st = 429 ∨ 500 ≤ st)) ∧
    (¬(st = 429 ∨ 500 ≤ st) → getRobotsTxt (.response st (.ok body)) = .ok body) ∧
    isErrorResult (getRobotsTxt .transportErr) = true := by
  by_cases h : st = 429 ∨ 500 ≤ st <;>
    simp [getRobotsTxt, h, isErrorResult]

/-- C7 witness: a 404 response with body "abc" is accepted verbatim. -/
theorem c7_robots_outcomes_witness :
    getRobotsTxt (.response 404 (.ok "abc")) = .ok "abc" :=
  (c7_robots_outcomes 404 "abc").2.1 (by decide)

/-! ### The worker iteration (src/crawler.go Crawl) for claim C1

One pass of the worker loop after a successful dequeue.  The HTTP round trip
and the goquery parse are inputs: `HttpResult.transportErr` is a failed
`client.Do`, and `.response status doc` carries the status code and, for a
parseable body, the document (its anchor hrefs and its `doc.Html()` text).
`ClockReads` carries the `time.Now()` readings an iteration can perform:
`tA` for new-row and page timestamps, `tB` and `tC` for the two stamps of
savePageContent (updateLastCheckedDate uses `tB`).  `runtime.Goexit` (worker
fatal) is the `.workerExit` outcome. -/

/-- A parsed HTML document: its anchor hrefs and its serialised text. -/
structure Doc where
  rawHrefs : List String
  html : String
deriving DecidableEq, Repr

/-- Outcome of the worker's GET for one url. -/
inductive HttpResult where
  | transportErr
  | response (status : Nat) (doc : Option Doc)
deriving DecidableEq, Repr

/-- Mutable state a worker iteration touches: the shared queue, the store,
the failed-request counters (nil when RetryTimes is 0) and the known-invalid
url cache. -/
structure CrawlState where
  q : UniqueQueue
  store : Store
  failedRequests : Option (List (String × Nat))
  knownInvalid : List String
deriving DecidableEq, Repr

/-- Clock readings available to one iteration. -/
structure ClockReads where
  tA : Nat
  tB : Nat
  tC : Nat
deriving DecidableEq, Repr

/-- Outcome of one iteration: continue looping, or the worker ends. -/
inductive StepOutcome where
  | next
  | workerExit
deriving DecidableEq, Repr

/-- Reading a Go `map[string]int`: a missing key reads as zero. -/
def failedCount (m : List (String × Nat)) (k : String) : Nat :=
  match m.find? (fun p => p.1 == k) with
  | some p => p.2
  | none => 0

/-- Writing a Go `map[string]int`. -/
def natMapSet : List (String × Nat) → String → Nat → List (String × Nat)
  | [], k, v => [(k, v)]
  | p :: rest, k, v => if p.1 = k then (k, v) :: rest else p :: natMapSet rest k v

/-- The href schemes the crawler never follows (src/crawler.go). -/
def invalidHrefPrefixs : List String :=
  ["file:", "mailto:", "tel:", "javascript:", "#", "data:"]

/-- crawler.fetchEmbeddedURLs: trim each href, absolutise it against the base
URL unless it is already absolute or opaque, lower-case it, and drop hrefs
already known to be invalid. -/
def fetchEmbeddedURLs (c : CrawlerCfg) (knownInvalid : List String)
    (raws : List String) : List String :=
  raws.foldl (fun acc href0 =>
    let href1 := goTrimSpace href0
    let href2 :=
      if !(IsAbsoluteURL c.parse href1) && !(BeginsWith href1 invalidHrefPrefixs) then
        c.baseURLString ++ (if !(goStartsWith href1 "/") then "/" ++ href1 else href1)
      else href1
    let href3 := goToLower href2
    if knownInvalid.any (fun s => s == href3) then acc else acc ++ [href3]) []

/-- Discovery handling for one extracted href: validate, enqueue, insert the
new URL row, raise the save flag for marked urls; an insert failure is fatal
for the worker (`.error` carries the state at exit). -/
def hrefStep (c : CrawlerCfg) (tA : Nat) (st : CrawlState) (href : String) :
    Except CrawlState CrawlState :=
  if isValidURL c href then
    match st.q.Push href with
    | (q2, true) =>
      match URLInsert (NewURL href 0 0 (isMarkedURL c href)) st.store.urls tA with
      | .error _ => .error { st with q := q2 }
      | .ok urls2 =>
        if isMarkedURL c href then
          .ok { st with
            q := (q2.SetMapValue href true),
            store := { st.store with urls := urls2 } }
        else
          .ok { st with q := q2, store := { st.store with urls := urls2 } }
    | (q2, false) => .ok { st with q := q2 }
  else
    .ok { st with knownInvalid := st.knownInvalid ++ [href] }

/-- crawler.Crawl, one iteration after dequeuing `urlpath`: transport errors
requeue within the retry budget; non-200 responses are logged and skipped;
a 200 response has its hrefs discovered and its content persisted
(savePageContent for marked/flagged urls, updateLastCheckedDate otherwise). -/
def crawlStep (c : CrawlerCfg) (st : CrawlState) (urlpath : String)
    (res : HttpResult) (tk : ClockReads) : CrawlState × StepOutcome :=
  match res with
  | .transportErr =>
    match st.failedRequests with
    | some fr =>
      if failedCount fr urlpath < c.retryTimes then
        ({ st with
          q := st.q.PushForce urlpath,
          failedRequests := some (natMapSet fr urlpath (failedCount fr urlpath + 1)) },
          .next)
      else (st, .next)
    | none => (st, .next)
  | .response status doc =>
    if status ≠ 200 then (st, .next)
    else
      match doc with
      | none => (st, .next)
      | some d =>
        match (fetchEmbeddedURLs c st.knownInvalid d.rawHrefs).foldl
            (fun (acc : Except CrawlState CrawlState) href =>
              match acc with
              | .error s => .error s
              | .ok s => hrefStep c tk.tA s href) (Except.ok st) with
        | .error s => (s, .workerExit)
        | .ok s =>
          match s.q.GetMapValue urlpath with
          | none => (s, .workerExit)
          | some saveURLContent =>
            if isMarkedURL c urlpath || saveURLContent then
              match savePageContent s.store urlpath d.html tk.tA tk.tB tk.tC with
              | .error _ => (s, .workerExit)
              | .ok store2 =>
                ({ s with store := store2, q := s.q.SetMapValue urlpath false }, .next)
            else
              match updateLastCheckedDate s.store urlpath tk.tB with
              | .error _ => (s, .workerExit)
              | .ok store2 => ({ s with store := store2 }, .next)

/-- Concrete configuration for the C1 counterexample. -/
def c1cfg : CrawlerCfg :=
  { baseURLString := "https://h.example", baseHostname := "h.example",
    markedURLs := [], ignorePatterns := [], retryTimes := 0,
    parse := fun _ => none, robotsAllowed := fun _ => true }

/-- Concrete state for the C1 counterexample: the dequeued url has a live
store row at version 1. -/
def c1state : CrawlState :=
  { q := ⟨[], [("https://h.example/p", false)]⟩,
    store := ⟨[⟨1, "https://h.example/p", 0, 5, 0, false, true, 1⟩], []⟩,
    failedRequests := none,
    knownInvalid := [] }

/-- C1 counterexample: on a 404 response the iteration returns the state
completely unchanged and continues — the row keeps is_alive = true and
version 1, no last_checked stamp and no store Update happen, contradicting
the claimed 404 handling. -/
theorem c1_counterexample :
    crawlStep c1cfg c1state "https://h.example/p" (.response 404 none) ⟨7, 8, 9⟩
      = (c1state, .next) ∧
    c1state.store.urls.map (fun r => (r.isAlive, r.lastChecked, r.version))
      = [(true, 5, 1)] := by
  exact ⟨rfl, rfl⟩

/-- C1 amended: every non-200 status, including 404, makes the iteration log
and skip the url: the queue, the store (no Update, no is_alive change), the
retry counters and the invalid-url cache are all left untouched and the
worker continues. -/
theorem c1_non200_skips (c : CrawlerCfg) (st : CrawlState) (urlpath : String)
    (status : Nat) (doc : Option Doc) (tk : ClockReads) (h : status ≠ 200) :
    crawlStep c st urlpath (.response status doc) tk = (st, .next) := by
  unfold crawlStep
  simp [h]

/-- C1 witness: the amended theorem applied at status 404. -/
theorem c1_non200_skips_witness :
    crawlStep c1cfg c1state "https://h.example/p" (.response 404 none) ⟨7, 8, 9⟩
      = (c1state, .next) :=
  c1_non200_skips c1cfg c1state "https://h.example/p" 404 none ⟨7, 8, 9⟩ (by decide)

/-! ### loadUrlsToQueue (src/unnamed/part_032) for claims C6 and C9

The cmd-layer loader.  `m.GetAll` runs one SELECT with
`ORDER BY is_monitored LIMIT pageSize OFFSET (page-1)*pageSize`; the model
takes the table already in that sort order and applies the limit and offset.
Time is measured in hours so that the refresh interval of `days` becomes
`days * 24` (the source builds `time.ParseDuration(days*24 + "h")`);
`hostnameOf` is the `url.Parse(u).Hostname()` oracle. -/

/-- models.URLColumns, the sort whitelist. -/
def URLColumns : List String :=
  ["id", "url", "first_encountered", "last_checked", "last_saved",
   "is_monitored", "is_alive", "version"]

/-- models.CommonFilters. -/
structure CommonFilters where
  Page : Nat
  PageSize : Nat
  sort : String
  SortSafeList : List String
deriving DecidableEq, Repr

/-- CommonFilters.Limit. -/
def CommonFilters.Limit (c : CommonFilters) : Nat := c.PageSize

/-- CommonFilters.Offset. -/
def CommonFilters.Offset (c : CommonFilters) : Nat := (c.Page - 1) * c.PageSize

/-- Rows returned by models.URLGetAll: LIMIT and OFFSET applied to the table
in SELECT order. -/
def URLGetAllRows (db : List URLRow) (cf : CommonFilters) : List URLRow :=
  (db.drop cf.Offset).take cf.Limit

/-- The literal filter loadUrlsToQueue builds: page 1 of 100000 rows sorted
by is_monitored. -/
def loadCF : CommonFilters :=
  { Page := 1, PageSize := 100000, sort := "is_monitored", SortSafeList := URLColumns }

/-- Command-line arguments loadUrlsToQueue consults. -/
structure CmdArgs where
  updateDaysPast : Nat
  ignorePattern : List String
  markedURLs : List String
  updateHrefs : Bool
  baseHostname : String
  hostnameOf : String → String

/-- One row of the loadUrlsToQueue loop body: dead urls only get their
membership recorded; ignored urls are skipped entirely; same-host rows are
queued with the save flag when monitored and due, promoted to monitored and
queued when unmonitored but marked, force-queued without the flag in
update-hrefs mode, and otherwise only recorded in the membership map. -/
def loadStep (args : CmdArgs) (now : Nat)
    (acc : Except ModelErr (UniqueQueue × List URLRow × Nat)) (urlDB : URLRow) :
    Except ModelErr (UniqueQueue × List URLRow × Nat) :=
  match acc with
  | .error e => .error e
  | .ok (q, store, cnt) =>
    if urlDB.isAlive = false then .ok (q.SetMapValue urlDB.url false, store, cnt)
    else if ContainsAny urlDB.url args.ignorePattern = true then .ok (q, store, cnt)
    else if args.hostnameOf urlDB.url = args.baseHostname then
      if urlDB.isMonitored = true ∧ urlDB.lastSaved + args.updateDaysPast * 24 ≤ now then
        .ok ((q.PushForce urlDB.url).SetMapValue urlDB.url true, store, cnt + 1)
      else if urlDB.isMonitored = false ∧ ContainsAny urlDB.url args.markedURLs = true then
        match URLUpdate { urlDB with isMonitored := true } store with
        | .error e => .error e
        | .ok (store2, _) =>
          .ok ((q.PushForce urlDB.url).SetMapValue urlDB.url true, store2, cnt + 1)
      else if args.updateHrefs = true then
        .ok (q.PushForce urlDB.url, store, cnt + 1)
      else
        .ok (q.SetMapValue urlDB.url false, store, cnt)
    else .ok (q, store, cnt)

/-- loadUrlsToQueue: fetch one page of rows and fold the loop body over it;
the store state threaded through is the full table the updates act on. -/
def loadUrlsToQueue (q : UniqueQueue) (db : List URLRow) (args : CmdArgs) (now : Nat) :
    Except ModelErr (UniqueQueue × List URLRow × Nat) :=
  (URLGetAllRows db loadCF).foldl (loadStep args now) (.ok (q, db, 0))

/-- Concrete arguments for the C6 counterexample: update-hrefs mode on, no
marked or ignored patterns, all urls resolving to the base host. -/
def c6args : CmdArgs :=
  { updateDaysPast := 1, ignorePattern := [], markedURLs := [],
    updateHrefs := true, baseHostname := "h.example",
    hostnameOf := fun _ => "h.example" }

/-- C6 counterexample: a monitored, alive, same-host row whose refresh is not
yet due (last_saved = 100, days = 1, now = 100 < 124) is force-queued by the
update-hrefs branch, so contrary to the claim it does not merely have its
membership recorded with save-flag = false. -/
theorem c6_counterexample :
    loadUrlsToQueue NewQueue [⟨1, "https://h.example/m", 0, 0, 100, true, true, 1⟩]
        c6args 100
      = .ok (⟨["https://h.example/m"], [("https://h.example/m", false)]⟩,
          [⟨1, "https://h.example/m", 0, 0, 100, true, true, 1⟩], 1) := by
  rfl

/-- C6 amended: per stored row, the loader records only membership for dead
rows, skips ignored rows entirely, force-queues monitored-and-due rows with
the save flag, promotes unmonitored marked rows in the store and force-queues
them with the save flag, and treats every remaining alive same-host row by
recording membership only when update-hrefs mode is off but force-queuing it
(flag false) when update-hrefs mode is on. -/
theorem c6_load_behavior (args : CmdArgs) (now : Nat) (q : UniqueQueue)
    (store : List URLRow) (cnt : Nat) (row : URLRow) :
    (row.isAlive = false →
      loadStep args now (.ok (q, store, cnt)) row
        = .ok (q.SetMapValue row.url false, store, cnt)) ∧
    (row.isAlive = true → ContainsAny row.url args.ignorePattern = true →
      loadStep args now (.ok (q, store, cnt)) row = .ok (q, store, cnt)) ∧
    (row.isAlive = true → ContainsAny row.url args.ignorePattern = false →
      args.hostnameOf row.url = args.baseHostname →
      row.isMonitored = true → row.lastSaved + args.updateDaysPast * 24 ≤ now →
      loadStep args now (.ok (q, store, cnt)) row
        = .ok ((q.PushForce row.url).SetMapValue row.url true, store, cnt + 1)) ∧
    (row.isAlive = true → ContainsAny row.url args.ignorePattern = false →
      args.hostnameOf row.url = args.baseHostname →
      row.isMonitored = false → ContainsAny row.url args.markedURLs = true →
      ∀ store2 v, URLUpdate { row with isMonitored := true } store = .ok (store2, v) →
      loadStep args now (.ok (q, store, cnt)) row
        = .ok ((q.PushForce row.url).SetMapValue row.url true, store2, cnt + 1)) ∧
    (args.updateHrefs = false → row.isAlive = true →
      ContainsAny row.url args.ignorePattern = false →
      args.hostnameOf row.url = args.baseHostname →
      ((row.isMonitored = true ∧ now < row.lastSaved + args.updateDaysPast * 24) ∨
        (row.isMonitored = false ∧ ContainsAny row.url args.markedURLs = false)) →
      loadStep args now (.ok (q, store, cnt)) row
        = .ok (q.SetMapValue row.url false, store, cnt)) ∧
    (args.updateHrefs = true → row.isAlive = true →
      ContainsAny row.url args.ignorePattern = false →
      args.hostnameOf row.url = args.baseHostname →
      ((row.isMonitored = true ∧ now < row.lastSaved + args.updateDaysPast * 24) ∨
        (row.isMonitored = false ∧ ContainsAny row.url args.markedURLs = false)) →
      loadStep args now (.ok (q, store, cnt)) row
        = .ok (q.PushForce row.url, store, cnt + 1)) := by
  refine ⟨?_, ?_, ?_, ?_, ?_, ?_⟩
  · intro h1
    simp [loadStep, h1]
  · intro h1 h2
    simp [loadStep, h1, h2]
  · intro h1 h2 h3 h4 h5
    simp [loadStep, h1, h2, h3, h4, h5]
  · intro h1 h2 h3 h4 h5 store2 v hupd
    rw [h1] at hupd
    simp [loadStep, h1, h2, h3, h4, h5, hupd]
  · intro h0 h1 h2 h3 hcase
    rcases hcase with ⟨hm, hlt⟩ | ⟨hm, hmk⟩
    · simp [loadStep, h0, h1, h2, h3, hm, Nat.not_le.mpr hlt]
    · simp [loadStep, h0, h1, h2, h3, hm, hmk]
  · intro h0 h1 h2 h3 hcase
    rcases hcase with ⟨hm, hlt⟩ | ⟨hm, hmk⟩
    · simp [loadStep, h0, h1, h2, h3, hm, Nat.not_le.mpr hlt]
    · simp [loadStep, h0, h1, h2, h3, hm, hmk]

/-- C6 witness: concrete instances of the dead-row and monitored-due
conjuncts. -/
theorem c6_load_behavior_witness :
    (loadStep c6args 200 (.ok (NewQueue, [], 0)) ⟨1, "https://h.example/d", 0, 0, 0, false, false, 1⟩
      = .ok (NewQueue.SetMapValue "https://h.example/d" false, [], 0)) ∧
    (loadStep c6args 200 (.ok (NewQueue, [], 0)) ⟨1, "https://h.example/m", 0, 0, 100, true, true, 1⟩
      = .ok ((NewQueue.PushForce "https://h.example/m").SetMapValue "https://h.example/m" true,
          [], 1)) :=
  ⟨(c6_load_behavior c6args 200 NewQueue [] 0
      ⟨1, "https://h.example/d", 0, 0, 0, false, false, 1⟩).1 (by decide),
   (c6_load_behavior c6args 200 NewQueue [] 0
      ⟨1, "https://h.example/m", 0, 0, 100, true, true, 1⟩).2.2.1
      (by decide) (by decide) (by decide) (by decide) (by decide)⟩

/-- C9: the loader's single GetAll call returns page 1 with page size 100000,
so with a table of more than 100000 rows only the first 100000 are ever
folded over — the rows beyond them are never examined, queued, or recorded. -/
theorem c9_pagination (q : UniqueQueue) (db1 db2 : List URLRow) (args : CmdArgs)
    (now : Nat) (h : db1.length = 100000) :
    loadUrlsToQueue q (db1 ++ db2) args now
      = db1.foldl (loadStep args now) (.ok (q, db1 ++ db2, 0)) ∧
    URLGetAllRows (db1 ++ db2) loadCF = db1 := by
  have htake : URLGetAllRows (db1 ++ db2) loadCF = db1 := by
    unfold URLGetAllRows loadCF CommonFilters.Offset CommonFilters.Limit
    simp only [Nat.sub_self, Nat.zero_mul, List.drop_zero]
    rw [← h]
    exact List.take_left db1 db2
  exact ⟨by unfold loadUrlsToQueue; rw [htake], htake⟩

/-- C9 witness: a table of 100001 identical rows; only the first 100000 form
the processed page. -/
theorem c9_pagination_witness :
    loadUrlsToQueue NewQueue
        (List.replicate 100000 (⟨1, "https://h.example/", 0, 0, 0, false, true, 1⟩ : URLRow)
          ++ [⟨2, "https://h.example/x", 0, 0, 0, false, true, 1⟩]) c6args 0
      = (List.replicate 100000 (⟨1, "https://h.example/", 0, 0, 0, false, true, 1⟩ : URLRow)).foldl
          (loadStep c6args 0)
          (.ok (NewQueue,
            List.replicate 100000 (⟨1, "https://h.example/", 0, 0, 0, false, true, 1⟩ : URLRow)
              ++ [⟨2, "https://h.example/x", 0, 0, 0, false, true, 1⟩], 0)) :=
  (c9_pagination NewQueue
    (List.replicate 100000 (⟨1, "https://h.example/", 0, 0, 0, false, true, 1⟩ : URLRow))
    [⟨2, "https://h.example/x", 0, 0, 0, false, true, 1⟩] c6args 0
    (by rw [List.length_replicate])).1
